import Mathlib

/-!
Verification of the eBPF packet-filtering pipeline of this repository
(`ping-drop` and `security_monitor`): a shallow embedding of the XDP
classifiers (`try_ping_drop`, `xdp_firewall`), the shared blocklist and
event maps, and the control-plane blocklist population loop, together
with proofs of the spec's testable properties.
-/

/- ### Association-list model of the aya `HashMap` (BPF hash map).

`insert k v 0` (flag `BPF_ANY`) creates or overwrites; `get` returns the
stored value when the key is present. We keep one physical entry per key:
insertion removes any older binding of the same key. -/

def lookupA {α : Type} : List (Nat × α) → Nat → Option α
  | [], _ => none
  | (k', v) :: rest, k => if k' = k then some v else lookupA rest k

def insertA {α : Type} (m : List (Nat × α)) (k : Nat) (v : α) : List (Nat × α) :=
  (k, v) :: m.filter (fun p => p.1 != k)

def countKey {α : Type} (m : List (Nat × α)) (k : Nat) : Nat :=
  (m.filter (fun p => p.1 == k)).length

/-- The BLOCKLIST map: key = 32-bit IPv4 address (raw bits), value = u32. -/
def BMap : Type := List (Nat × Nat)

/- ### XDP context and bounds-checked pointer access.

A packet buffer is the byte range `[data, data_end)` of a memory
`mem : Nat → Nat` (one byte per address). `ptr_at` mirrors the Rust
helper: it fails unless `data + offset + size_of::<T>() ≤ data_end`, and
on success returns the address `data + offset` through which the caller
reads the header fields. -/

structure XdpContext where
  data : Nat
  data_end : Nat
  mem : Nat → Nat

def EthHdr.LEN : Nat := 14
def Ipv4Hdr.LEN : Nat := 20
def TcpHdr.LEN : Nat := 20
def UdpHdr.LEN : Nat := 8

def XDP_ABORTED : Nat := 0
def XDP_DROP : Nat := 1
def XDP_PASS : Nat := 2

/-- `IpProto::Icmp` is protocol value 1. -/
def IpProto.Icmp : Nat := 1
def IpProto.Tcp : Nat := 6
def IpProto.Udp : Nat := 17

def ptr_at (ctx : XdpContext) (size offset : Nat) : Except Unit Nat :=
  if ctx.data + offset + size > ctx.data_end then Except.error ()
  else Except.ok (ctx.data + offset)

/-- `u16::from_be_bytes` on two bytes. -/
def u16be (b0 b1 : Nat) : Nat := b0 * 256 + b1

/-- `u32::from_be_bytes` on four bytes. -/
def u32be (b0 b1 b2 b3 : Nat) : Nat := ((b0 * 256 + b1) * 256 + b2) * 256 + b3

/-- `EthHdr.ether_type() == Ok(EtherType::Ipv4)`: the two ether-type bytes
(at offset 12 of the Ethernet header) are `0x08 0x00`. -/
def isIpv4EtherType (ctx : XdpContext) (ethhdr : Nat) : Bool :=
  ctx.mem (ethhdr + 12) == 0x08 && ctx.mem (ethhdr + 13) == 0x00

/-- `Ipv4Hdr.src_addr` (header offset 12..16), as `u32::from_be_bytes`. -/
def ipv4Src (ctx : XdpContext) (ipv4hdr : Nat) : Nat :=
  u32be (ctx.mem (ipv4hdr + 12)) (ctx.mem (ipv4hdr + 13))
        (ctx.mem (ipv4hdr + 14)) (ctx.mem (ipv4hdr + 15))

/-- `Ipv4Hdr.proto` (header offset 9). -/
def ipv4Proto (ctx : XdpContext) (ipv4hdr : Nat) : Nat := ctx.mem (ipv4hdr + 9)

/-- `Ipv4Hdr.tot_len` (header offset 2..4), as `u16::from_be_bytes`. -/
def ipv4TotLen (ctx : XdpContext) (ipv4hdr : Nat) : Nat :=
  u16be (ctx.mem (ipv4hdr + 2)) (ctx.mem (ipv4hdr + 3))

/- ### ping-drop classifier (ping-drop-ebpf/src/main.rs). -/

/-- `BLOCKLIST.get(&address).is_some()`: key presence only. -/
def block_ip (bl : BMap) (address : Nat) : Bool := (lookupA bl address).isSome

def try_ping_drop (bl : BMap) (ctx : XdpContext) : Except Unit Nat :=
  match ptr_at ctx EthHdr.LEN 0 with
  | Except.error e => Except.error e
  | Except.ok ethhdr =>
    if isIpv4EtherType ctx ethhdr then
      match ptr_at ctx Ipv4Hdr.LEN EthHdr.LEN with
      | Except.error e => Except.error e
      | Except.ok ipv4hdr =>
        let source := ipv4Src ctx ipv4hdr
        let protocol := ipv4Proto ctx ipv4hdr
        let action :=
          if block_ip bl source then
            if protocol = IpProto.Icmp then XDP_DROP else XDP_PASS
          else XDP_PASS
        Except.ok action
    else Except.ok XDP_PASS

/-- XDP entry point: `Err(_) => xdp_action::XDP_ABORTED`. -/
def ping_drop (bl : BMap) (ctx : XdpContext) : Nat :=
  match try_ping_drop bl ctx with
  | Except.ok ret => ret
  | Except.error _ => XDP_ABORTED

/- ### security_monitor classifier (security_monitor-ebpf/src/main.rs). -/

structure EventData where
  event_type : Nat
  data_one : Nat
  data_two : Nat
deriving DecidableEq, Repr

/-- The EVENTS map: key = event-type id, value = the event record. -/
def EMap : Type := List (Nat × EventData)

def try_xdp_firewall (ev : EMap) (ctx : XdpContext) : Except Unit (Nat × EMap) :=
  match ptr_at ctx EthHdr.LEN 0 with
  | Except.error e => Except.error e
  | Except.ok ethhdr =>
    if isIpv4EtherType ctx ethhdr then
      match ptr_at ctx Ipv4Hdr.LEN EthHdr.LEN with
      | Except.error e => Except.error e
      | Except.ok ipv4hdr =>
        let source_addr := ipv4Src ctx ipv4hdr
        let port? : Except Unit Nat :=
          if ipv4Proto ctx ipv4hdr = IpProto.Tcp then
            match ptr_at ctx TcpHdr.LEN (EthHdr.LEN + Ipv4Hdr.LEN) with
            | Except.error e => Except.error e
            | Except.ok tcphdr =>
              Except.ok (u16be (ctx.mem (tcphdr + 0)) (ctx.mem (tcphdr + 1)))
          else if ipv4Proto ctx ipv4hdr = IpProto.Udp then
            match ptr_at ctx UdpHdr.LEN (EthHdr.LEN + Ipv4Hdr.LEN) with
            | Except.error e => Except.error e
            | Except.ok udphdr =>
              Except.ok (u16be (ctx.mem (udphdr + 0)) (ctx.mem (udphdr + 1)))
          else Except.ok 0
        match port? with
        | Except.error e => Except.error e
        | Except.ok source_port =>
          Except.ok (XDP_PASS,
            insertA ev 1 ⟨1, source_addr, source_port⟩)
    else Except.ok (XDP_PASS, ev)

/-- XDP entry point of the security monitor: `Err(_) => xdp_action::XDP_PASS`
(fails open, unlike `ping_drop`). -/
def xdp_firewall (ev : EMap) (ctx : XdpContext) : Nat × EMap :=
  match try_xdp_firewall ev ctx with
  | Except.ok ret => ret
  | Except.error _ => (XDP_PASS, ev)

/-- Tracepoint handler: `EVENTS.insert(&2, EventData { 2, pid, 0 }, 0)`. -/
def socket_connect (ev : EMap) (pid : Nat) : EMap :=
  insertA ev 2 ⟨2, pid, 0⟩

/-- Tracepoint handler: `EVENTS.insert(&3, EventData { 3, pid, 0 }, 0)`. -/
def handle_execve (ev : EMap) (pid : Nat) : EMap :=
  insertA ev 3 ⟨3, pid, 0⟩

/- ### Control plane (ping-drop/src/main.rs): blocklist population.

Strings are modelled as `List Char`. `splitOnComma` is Rust's
`str::split(',')`, `trimChars` is `str::trim`, and `parseIpv4` is the
standard-library `"a.b.c.d".parse::<Ipv4Addr>()` followed by
`u32::from(ip)` (big-endian packing of the four octets): exactly four
octets separated by dots, each 1-3 decimal digits with no leading zero
and value ≤ 255, nothing after the last octet. -/

def splitOnComma : List Char → List (List Char)
  | [] => [[]]
  | c :: cs =>
    if c = ',' then [] :: splitOnComma cs
    else
      match splitOnComma cs with
      | t :: ts => (c :: t) :: ts
      | [] => [[c]]

def isSpaceChar (c : Char) : Bool :=
  c = ' ' || c = '\t' || c = '\n' || c = '\r'

def trimChars (cs : List Char) : List Char :=
  ((cs.dropWhile isSpaceChar).reverse.dropWhile isSpaceChar).reverse

def isDigitChar (c : Char) : Bool := '0' ≤ c && c ≤ '9'

def digitVal (c : Char) : Nat := c.toNat - '0'.toNat

def parseOctet (cs : List Char) : Option (Nat × List Char) :=
  let ds := cs.takeWhile isDigitChar
  let rest := cs.dropWhile isDigitChar
  if ds.isEmpty then none
  else if ds.length > 3 then none
  else if ds.headD ' ' = '0' && ds.length > 1 then none
  else
    let v := ds.foldl (fun a c => a * 10 + digitVal c) 0
    if v > 255 then none else some (v, rest)

def expectDot : List Char → Option (List Char)
  | '.' :: rest => some rest
  | _ => none

def parseIpv4 (cs : List Char) : Option Nat := do
  let (a, r) ← parseOctet cs
  let r ← expectDot r
  let (b, r) ← parseOctet r
  let r ← expectDot r
  let (c, r) ← parseOctet r
  let r ← expectDot r
  let (d, r) ← parseOctet r
  if r = [] then some (u32be a b c d) else none

/-- One token of the `--block` list (state = blocklist × warning count):
trim; skip a token that is empty after trimming; insert a parsed address
with value 1; warn once and skip an unparsable token. -/
def loadToken (st : BMap × Nat) (tok : List Char) : BMap × Nat :=
  let trimmed := trimChars tok
  if trimmed.isEmpty then st
  else
    match parseIpv4 trimmed with
    | some ip => (insertA st.1 ip 1, st.2)
    | none => (st.1, st.2 + 1)

/-- The `--block` loop: split on commas, process each token in order. -/
def processBlockList (st : BMap × Nat) (list : List Char) : BMap × Nat :=
  (splitOnComma list).foldl loadToken st

/-- One line of the `--ip-file`: trim; skip blank lines and lines whose
trimmed form starts with '#'; otherwise parse with the same
insert-or-warn policy as `loadToken`. -/
def loadLine (st : BMap × Nat) (line : List Char) : BMap × Nat :=
  let trimmed := trimChars line
  if trimmed.isEmpty || (trimmed.headD ' ' == '#') then st
  else
    match parseIpv4 trimmed with
    | some ip => (insertA st.1 ip 1, st.2)
    | none => (st.1, st.2 + 1)

/-- The `--ip-file` loop: process each line in order. -/
def processIpFile (st : BMap × Nat) (lines : List (List Char)) : BMap × Nat :=
  lines.foldl loadLine st

/-- Blocklist population of `main`: start empty, process the `--block`
list first (when given), then the `--ip-file` lines (when given).
Returns the final map and the total number of warnings. -/
def populate (block : Option (List Char)) (fileLines : Option (List (List Char))) :
    BMap × Nat :=
  let st0 : BMap × Nat := ([], 0)
  let st1 := match block with
    | some l => processBlockList st0 l
    | none => st0
  match fileLines with
  | some ls => processIpFile st1 ls
  | none => st1

/- ### Event sequences over the EVENTS map. -/

inductive Event where
  | network (src port : Nat)
  | socketConn (pid : Nat)
  | exec (pid : Nat)
deriving DecidableEq, Repr

def eventKey : Event → Nat
  | Event.network _ _ => 1
  | Event.socketConn _ => 2
  | Event.exec _ => 3

def eventRecord : Event → EventData
  | Event.network src port => ⟨1, src, port⟩
  | Event.socketConn pid => ⟨2, pid, 0⟩
  | Event.exec pid => ⟨3, pid, 0⟩

/-- One event occurrence as the classifier handles it: the XDP hook
writes key 1 (as in `try_xdp_firewall`), the two tracepoint handlers
write keys 2 and 3. -/
def stepEvent (ev : EMap) : Event → EMap
  | Event.network src port => insertA ev 1 ⟨1, src, port⟩
  | Event.socketConn pid => socket_connect ev pid
  | Event.exec pid => handle_execve ev pid

def runEvents (ev : EMap) (es : List Event) : EMap :=
  es.foldl stepEvent ev

/- ### Map lemmas. -/

theorem lookupA_insertA_self {α : Type} (m : List (Nat × α)) (k : Nat) (v : α) :
    lookupA (insertA m k v) k = some v := by
  simp [insertA, lookupA]

theorem lookupA_filter_ne {α : Type} (m : List (Nat × α)) (k k' : Nat) (h : k' ≠ k) :
    lookupA (m.filter (fun p => p.1 != k)) k' = lookupA m k' := by
  induction m with
  | nil => rfl
  | cons p rest ih =>
    obtain ⟨pk, pv⟩ := p
    by_cases hpk : pk = k
    · subst hpk
      have : ¬ pk = k' := fun hc => h (hc ▸ rfl)
      simp [lookupA, this, ih]
    · simp only [List.filter_cons]
      simp only [bne_iff_ne, ne_eq, hpk, not_false_eq_true, decide_True]
      by_cases hpk' : pk = k'
      · subst hpk'
        simp [lookupA]
      · simp [lookupA, hpk', ih]

theorem lookupA_insertA_ne {α : Type} (m : List (Nat × α)) (k k' : Nat) (v : α)
    (h : k' ≠ k) : lookupA (insertA m k v) k' = lookupA m k' := by
  have : ¬ k = k' := fun hc => h hc.symm
  simp [insertA, lookupA, this, lookupA_filter_ne m k k' h]

theorem filter_eq_of_filter_ne {α : Type} (m : List (Nat × α)) (k : Nat) :
    (m.filter (fun p => p.1 != k)).filter (fun p => p.1 == k) = [] := by
  induction m with
  | nil => rfl
  | cons p rest ih =>
    obtain ⟨pk, pv⟩ := p
    by_cases hpk : pk = k
    · subst hpk
      simp [List.filter_cons, ih]
    · simp [List.filter_cons, hpk, ih]

theorem countKey_insertA_self {α : Type} (m : List (Nat × α)) (k : Nat) (v : α) :
    countKey (insertA m k v) k = 1 := by
  simp [countKey, insertA, List.filter_cons, filter_eq_of_filter_ne]

theorem filter_ne_filter_eq {α : Type} (m : List (Nat × α)) (k k' : Nat) (h : k' ≠ k) :
    (m.filter (fun p => p.1 != k)).filter (fun p => p.1 == k') =
      m.filter (fun p => p.1 == k') := by
  induction m with
  | nil => rfl
  | cons p rest ih =>
    obtain ⟨pk, pv⟩ := p
    by_cases hpk : pk = k
    · subst hpk
      have : ¬ pk = k' := fun hc => h (hc ▸ rfl)
      simp [List.filter_cons, this, ih]
    · by_cases hpk' : pk = k'
      · subst hpk'
        simp [List.filter_cons, hpk, ih]
      · simp [List.filter_cons, hpk, hpk', ih]

theorem countKey_insertA_ne {α : Type} (m : List (Nat × α)) (k k' : Nat) (v : α)
    (h : k' ≠ k) : countKey (insertA m k v) k' = countKey m k' := by
  have hkk : ¬ k = k' := fun hc => h hc.symm
  simp [countKey, insertA, List.filter_cons, hkk, filter_ne_filter_eq m k k' h]

/- ### Closed-form evaluation of the classifiers. -/

theorem try_ping_drop_eq (bl : BMap) (ctx : XdpContext) :
    try_ping_drop bl ctx =
      if ctx.data + EthHdr.LEN > ctx.data_end then Except.error ()
      else if isIpv4EtherType ctx ctx.data then
        if ctx.data + EthHdr.LEN + Ipv4Hdr.LEN > ctx.data_end then Except.error ()
        else Except.ok (
          if block_ip bl (ipv4Src ctx (ctx.data + EthHdr.LEN)) then
            if ipv4Proto ctx (ctx.data + EthHdr.LEN) = IpProto.Icmp then XDP_DROP
            else XDP_PASS
          else XDP_PASS)
      else Except.ok XDP_PASS := by
  simp only [try_ping_drop, ptr_at, Nat.add_zero]
  by_cases h1 : ctx.data + EthHdr.LEN > ctx.data_end
  · simp [h1]
  · simp only [h1, if_false]
    by_cases h2 : isIpv4EtherType ctx ctx.data
    · simp only [h2, if_true]
      by_cases h3 : ctx.data + EthHdr.LEN + Ipv4Hdr.LEN > ctx.data_end
      · simp [h3]
      · simp [h3]
    · simp [h2]

theorem try_xdp_firewall_eq (ev : EMap) (ctx : XdpContext) :
    try_xdp_firewall ev ctx =
      if ctx.data + EthHdr.LEN > ctx.data_end then Except.error ()
      else if isIpv4EtherType ctx ctx.data then
        if ctx.data + EthHdr.LEN + Ipv4Hdr.LEN > ctx.data_end then Except.error ()
        else if ipv4Proto ctx (ctx.data + EthHdr.LEN) = IpProto.Tcp then
          if ctx.data + (EthHdr.LEN + Ipv4Hdr.LEN) + TcpHdr.LEN > ctx.data_end then
            Except.error ()
          else Except.ok (XDP_PASS, insertA ev 1
            ⟨1, ipv4Src ctx (ctx.data + EthHdr.LEN),
             u16be (ctx.mem (ctx.data + (EthHdr.LEN + Ipv4Hdr.LEN)))
                   (ctx.mem (ctx.data + (EthHdr.LEN + Ipv4Hdr.LEN) + 1))⟩)
        else if ipv4Proto ctx (ctx.data + EthHdr.LEN) = IpProto.Udp then
          if ctx.data + (EthHdr.LEN + Ipv4Hdr.LEN) + UdpHdr.LEN > ctx.data_end then
            Except.error ()
          else Except.ok (XDP_PASS, insertA ev 1
            ⟨1, ipv4Src ctx (ctx.data + EthHdr.LEN),
             u16be (ctx.mem (ctx.data + (EthHdr.LEN + Ipv4Hdr.LEN)))
                   (ctx.mem (ctx.data + (EthHdr.LEN + Ipv4Hdr.LEN) + 1))⟩)
        else Except.ok (XDP_PASS, insertA ev 1
          ⟨1, ipv4Src ctx (ctx.data + EthHdr.LEN), 0⟩)
      else Except.ok (XDP_PASS, ev) := by
  simp only [try_xdp_firewall, ptr_at, Nat.add_zero]
  by_cases h1 : ctx.data + EthHdr.LEN > ctx.data_end
  · simp [h1]
  · simp only [h1, if_false]
    by_cases h2 : isIpv4EtherType ctx ctx.data
    · simp only [h2, if_true]
      by_cases h3 : ctx.data + EthHdr.LEN + Ipv4Hdr.LEN > ctx.data_end
      · simp [h3]
      · simp only [h3, if_false]
        by_cases h4 : ipv4Proto ctx (ctx.data + EthHdr.LEN) = IpProto.Tcp
        · by_cases h5 : ctx.data + (EthHdr.LEN + Ipv4Hdr.LEN) + TcpHdr.LEN > ctx.data_end
          · simp [h4, h5]
          · simp [h4, h5]
        · by_cases h6 : ipv4Proto ctx (ctx.data + EthHdr.LEN) = IpProto.Udp
          · by_cases h7 : ctx.data + (EthHdr.LEN + Ipv4Hdr.LEN) + UdpHdr.LEN > ctx.data_end
            · simp [h4, h6, h7, IpProto.Tcp, IpProto.Udp]
            · simp [h4, h6, h7, IpProto.Tcp, IpProto.Udp]
          · simp [h4, h6]
    · simp [h2]

/- ### Frame lemmas: the classifiers read no memory at or beyond `data_end`
(nor below `data`): their results are unchanged under any modification of
the bytes outside the packet buffer. -/

theorem isIpv4EtherType_frame (ctx ctx' : XdpContext)
    (hm : ∀ a, ctx.data ≤ a → a < ctx.data_end → ctx'.mem a = ctx.mem a)
    (h1 : ctx.data + EthHdr.LEN ≤ ctx.data_end) :
    isIpv4EtherType ctx' ctx.data = isIpv4EtherType ctx ctx.data := by
  have hE : EthHdr.LEN = 14 := rfl
  have h12 := hm (ctx.data + 12) (by omega) (by omega)
  have h13 := hm (ctx.data + 13) (by omega) (by omega)
  simp [isIpv4EtherType, h12, h13]

theorem ipv4Src_frame (ctx ctx' : XdpContext)
    (hm : ∀ a, ctx.data ≤ a → a < ctx.data_end → ctx'.mem a = ctx.mem a)
    (h2 : ctx.data + EthHdr.LEN + Ipv4Hdr.LEN ≤ ctx.data_end) :
    ipv4Src ctx' (ctx.data + EthHdr.LEN) = ipv4Src ctx (ctx.data + EthHdr.LEN) := by
  have hE : EthHdr.LEN = 14 := rfl
  have hI : Ipv4Hdr.LEN = 20 := rfl
  have ha := hm (ctx.data + EthHdr.LEN + 12) (by omega) (by omega)
  have hb := hm (ctx.data + EthHdr.LEN + 13) (by omega) (by omega)
  have hc := hm (ctx.data + EthHdr.LEN + 14) (by omega) (by omega)
  have hd' := hm (ctx.data + EthHdr.LEN + 15) (by omega) (by omega)
  simp [ipv4Src, ha, hb, hc, hd']

theorem ipv4Proto_frame (ctx ctx' : XdpContext)
    (hm : ∀ a, ctx.data ≤ a → a < ctx.data_end → ctx'.mem a = ctx.mem a)
    (h2 : ctx.data + EthHdr.LEN + Ipv4Hdr.LEN ≤ ctx.data_end) :
    ipv4Proto ctx' (ctx.data + EthHdr.LEN) = ipv4Proto ctx (ctx.data + EthHdr.LEN) := by
  have hE : EthHdr.LEN = 14 := rfl
  have hI : Ipv4Hdr.LEN = 20 := rfl
  have ha := hm (ctx.data + EthHdr.LEN + 9) (by omega) (by omega)
  simp [ipv4Proto, ha]

theorem try_ping_drop_frame (bl : BMap) (ctx ctx' : XdpContext)
    (hd : ctx'.data = ctx.data) (he : ctx'.data_end = ctx.data_end)
    (hm : ∀ a, ctx.data ≤ a → a < ctx.data_end → ctx'.mem a = ctx.mem a) :
    try_ping_drop bl ctx' = try_ping_drop bl ctx := by
  rw [try_ping_drop_eq, try_ping_drop_eq, hd, he]
  by_cases h1 : ctx.data + EthHdr.LEN > ctx.data_end
  · simp [h1]
  · push_neg at h1
    rw [isIpv4EtherType_frame ctx ctx' hm h1]
    by_cases h2 : isIpv4EtherType ctx ctx.data
    · simp only [h2, if_true]
      by_cases h3 : ctx.data + EthHdr.LEN + Ipv4Hdr.LEN > ctx.data_end
      · simp [h3]
      · push_neg at h3
        rw [ipv4Src_frame ctx ctx' hm h3, ipv4Proto_frame ctx ctx' hm h3]
    · simp [h2]

theorem try_xdp_firewall_frame (ev : EMap) (ctx ctx' : XdpContext)
    (hd : ctx'.data = ctx.data) (he : ctx'.data_end = ctx.data_end)
    (hm : ∀ a, ctx.data ≤ a → a < ctx.data_end → ctx'.mem a = ctx.mem a) :
    try_xdp_firewall ev ctx' = try_xdp_firewall ev ctx := by
  have hE : EthHdr.LEN = 14 := rfl
  have hI : Ipv4Hdr.LEN = 20 := rfl
  have hT : TcpHdr.LEN = 20 := rfl
  have hU : UdpHdr.LEN = 8 := rfl
  rw [try_xdp_firewall_eq, try_xdp_firewall_eq, hd, he]
  by_cases h1 : ctx.data + EthHdr.LEN > ctx.data_end
  · simp [h1]
  · push_neg at h1
    rw [isIpv4EtherType_frame ctx ctx' hm h1]
    by_cases h2 : isIpv4EtherType ctx ctx.data
    · simp only [h2, if_true]
      by_cases h3 : ctx.data + EthHdr.LEN + Ipv4Hdr.LEN > ctx.data_end
      · simp [h3]
      · push_neg at h3
        rw [ipv4Src_frame ctx ctx' hm h3, ipv4Proto_frame ctx ctx' hm h3]
        by_cases h4 : ipv4Proto ctx (ctx.data + EthHdr.LEN) = IpProto.Tcp
        · simp only [h4, if_true]
          by_cases h5 : ctx.data + (EthHdr.LEN + Ipv4Hdr.LEN) + TcpHdr.LEN > ctx.data_end
          · simp [h5]
          · push_neg at h5
            have ha := hm (ctx.data + (EthHdr.LEN + Ipv4Hdr.LEN)) (by omega) (by omega)
            have hb := hm (ctx.data + (EthHdr.LEN + Ipv4Hdr.LEN) + 1) (by omega) (by omega)
            simp [h5, ha, hb]
        · simp only [h4, if_false]
          by_cases h6 : ipv4Proto ctx (ctx.data + EthHdr.LEN) = IpProto.Udp
          · simp only [h6, if_true]
            by_cases h7 : ctx.data + (EthHdr.LEN + Ipv4Hdr.LEN) + UdpHdr.LEN > ctx.data_end
            · simp [h7]
            · push_neg at h7
              have ha := hm (ctx.data + (EthHdr.LEN + Ipv4Hdr.LEN)) (by omega) (by omega)
              have hb := hm (ctx.data + (EthHdr.LEN + Ipv4Hdr.LEN) + 1) (by omega) (by omega)
              simp [h7, ha, hb]
          · simp [h6]
    · simp [h2]

/- ### Concrete packet fixtures. -/

/-- A packet buffer as a byte list: address `a` holds byte `l[a]` (0 past
the end; reads never reach there by the frame lemmas). -/
def memOf (l : List Nat) : Nat → Nat := fun a => l.getD a 0

/-- 203.0.113.5 as a big-endian u32. -/
def srcIp : Nat := 3405803781

/-- Ethernet (EtherType 0x0800) + IPv4 header, proto 1 (ICMP),
tot_len 84, source 203.0.113.5. -/
def icmpPkt : List Nat :=
  [0, 0, 0, 0, 0, 0, 0, 0, 0, 0, 0, 0, 0x08, 0x00,
   0x45, 0, 0, 84, 0, 0, 0, 0, 64, 1, 0, 0, 203, 0, 113, 5, 10, 0, 0, 9]

/-- The same frame with proto 6 (TCP). -/
def tcpPkt : List Nat :=
  [0, 0, 0, 0, 0, 0, 0, 0, 0, 0, 0, 0, 0x08, 0x00,
   0x45, 0, 0, 84, 0, 0, 0, 0, 64, 6, 0, 0, 203, 0, 113, 5, 10, 0, 0, 9]

/-- An ARP frame (EtherType 0x0806). -/
def arpPkt : List Nat :=
  [0, 0, 0, 0, 0, 0, 0, 0, 0, 0, 0, 0, 0x08, 0x06,
   0, 1, 8, 0, 6, 4, 0, 1, 0, 0, 0, 0, 0, 0, 203, 0, 113, 5, 0, 0]

def ctxICMP : XdpContext := ⟨0, 34, memOf icmpPkt⟩
def ctxTCP : XdpContext := ⟨0, 34, memOf tcpPkt⟩
def ctxARP : XdpContext := ⟨0, 34, memOf arpPkt⟩

/-- A truncated frame: only 5 bytes in the buffer. -/
def ctxShort : XdpContext := ⟨0, 5, memOf icmpPkt⟩

/- ### The claims. -/

/-- C1: for every well-formed IPv4 packet whose source address is present
in the Blocklist map, `try_ping_drop` returns DROP if the IPv4 protocol
field equals ICMP, and PASS for every other protocol value. -/
theorem C1_blocked_icmp_drops_others_pass (bl : BMap) (ctx : XdpContext)
    (hb : ctx.data + EthHdr.LEN + Ipv4Hdr.LEN ≤ ctx.data_end)
    (hip : isIpv4EtherType ctx ctx.data = true)
    (hblk : block_ip bl (ipv4Src ctx (ctx.data + EthHdr.LEN)) = true) :
    (ipv4Proto ctx (ctx.data + EthHdr.LEN) = IpProto.Icmp →
      try_ping_drop bl ctx = Except.ok XDP_DROP)
    ∧ (ipv4Proto ctx (ctx.data + EthHdr.LEN) ≠ IpProto.Icmp →
      try_ping_drop bl ctx = Except.ok XDP_PASS) := by
  have hE : EthHdr.LEN = 14 := rfl
  have hI : Ipv4Hdr.LEN = 20 := rfl
  have h1 : ¬ ctx.data + EthHdr.LEN > ctx.data_end := by omega
  have h3 : ¬ ctx.data + EthHdr.LEN + Ipv4Hdr.LEN > ctx.data_end := by omega
  constructor
  · intro hp
    rw [try_ping_drop_eq]
    simp [h1, h3, hip, hblk, hp]
  · intro hp
    rw [try_ping_drop_eq]
    simp [h1, h3, hip, hblk, hp]

/-- Witness for C1 at concrete packets: an ICMP packet from blocked
203.0.113.5 is dropped, a TCP packet from the same blocked source passes. -/
theorem C1_witness :
    try_ping_drop [(srcIp, 1)] ctxICMP = Except.ok XDP_DROP
    ∧ try_ping_drop [(srcIp, 1)] ctxTCP = Except.ok XDP_PASS := by
  constructor
  · exact (C1_blocked_icmp_drops_others_pass [(srcIp, 1)] ctxICMP
      (by decide) (by decide) (by decide)).1 (by decide)
  · exact (C1_blocked_icmp_drops_others_pass [(srcIp, 1)] ctxTCP
      (by decide) (by decide) (by decide)).2 (by decide)

/-- C2: for every well-formed IPv4 packet whose source address is absent
from the Blocklist map, the classifier returns PASS regardless of the
protocol field (default-allow). -/
theorem C2_absent_source_passes (bl : BMap) (ctx : XdpContext)
    (hb : ctx.data + EthHdr.LEN + Ipv4Hdr.LEN ≤ ctx.data_end)
    (hip : isIpv4EtherType ctx ctx.data = true)
    (habs : lookupA bl (ipv4Src ctx (ctx.data + EthHdr.LEN)) = none) :
    try_ping_drop bl ctx = Except.ok XDP_PASS := by
  have hE : EthHdr.LEN = 14 := rfl
  have hI : Ipv4Hdr.LEN = 20 := rfl
  have h1 : ¬ ctx.data + EthHdr.LEN > ctx.data_end := by omega
  have h3 : ¬ ctx.data + EthHdr.LEN + Ipv4Hdr.LEN > ctx.data_end := by omega
  have hblk : block_ip bl (ipv4Src ctx (ctx.data + EthHdr.LEN)) = false := by
    simp [block_ip, habs]
  rw [try_ping_drop_eq]
  simp [h1, h3, hip, hblk]

/-- Witness for C2: an ICMP packet from 203.0.113.5 passes when the
blocklist holds only a different address. -/
theorem C2_witness : try_ping_drop [(167772161, 1)] ctxICMP = Except.ok XDP_PASS :=
  C2_absent_source_passes [(167772161, 1)] ctxICMP (by decide) (by decide) (by decide)

/-- C3: for every Ethernet frame whose EtherType is not IPv4 (with the
Ethernet header in bounds), the classifier returns PASS immediately, for
every Blocklist contents and without reading the IPv4 or transport
headers: the verdict is PASS also for any other blocklist `bl'` and any
other context `ctx'` that agrees with `ctx` only on the 14 Ethernet
header bytes. -/
theorem C3_non_ipv4_passes (bl bl' : BMap) (ctx ctx' : XdpContext)
    (hb : ctx.data + EthHdr.LEN ≤ ctx.data_end)
    (hnip : isIpv4EtherType ctx ctx.data = false)
    (hd : ctx'.data = ctx.data) (he : ctx'.data_end = ctx.data_end)
    (hm : ∀ i, i < EthHdr.LEN → ctx'.mem (ctx.data + i) = ctx.mem (ctx.data + i)) :
    try_ping_drop bl ctx = Except.ok XDP_PASS
    ∧ try_ping_drop bl' ctx' = Except.ok XDP_PASS := by
  have hE : EthHdr.LEN = 14 := rfl
  have h1 : ¬ ctx.data + EthHdr.LEN > ctx.data_end := by omega
  have hnip' : isIpv4EtherType ctx' ctx.data = false := by
    have h12 := hm 12 (by omega)
    have h13 := hm 13 (by omega)
    simp only [isIpv4EtherType] at hnip ⊢
    rw [h12, h13]
    exact hnip
  constructor
  · rw [try_ping_drop_eq]
    simp [h1, hnip]
  · rw [try_ping_drop_eq, hd, he]
    simp [h1, hnip']

/-- Witness for C3: an ARP frame passes, and so does a context sharing
only its Ethernet bytes (here: the same fixture) under another blocklist. -/
theorem C3_witness :
    try_ping_drop [] ctxARP = Except.ok XDP_PASS
    ∧ try_ping_drop [(srcIp, 1)] ctxARP = Except.ok XDP_PASS :=
  C3_non_ipv4_passes [] [(srcIp, 1)] ctxARP ctxARP
    (by decide) (by decide) rfl rfl (fun i _ => rfl)

/-- C4, counterexample: the claim covers both cited entry points, but on
a truncated 5-byte frame (Ethernet bounds check fails) the
security_monitor entry point `xdp_firewall` returns PASS, not ABORTED. -/
theorem C4_cex_xdp_firewall_fails_open :
    ctxShort.data + EthHdr.LEN > ctxShort.data_end
    ∧ (xdp_firewall [] ctxShort).1 = XDP_PASS
    ∧ (xdp_firewall [] ctxShort).1 ≠ XDP_ABORTED := by
  refine ⟨by decide, ?_, ?_⟩ <;> simp [xdp_firewall, try_xdp_firewall_eq, ctxShort,
    EthHdr.LEN, XDP_PASS, XDP_ABORTED]

/-- C4 as amended: on any packet whose header bounds checks fail
(Ethernet header out of bounds, or IPv4 frame too short for the IPv4
header), `ping_drop` returns ABORTED while the security_monitor entry
point `xdp_firewall` returns PASS with the EVENTS map unchanged; neither
entry point reads memory at or beyond the buffer end (their verdicts are
unchanged under arbitrary modification of bytes outside
`[data, data_end)`). -/
theorem C4_truncated_aborts (bl : BMap) (ev : EMap) (ctx ctx' : XdpContext)
    (hfail : ctx.data + EthHdr.LEN > ctx.data_end ∨
      (isIpv4EtherType ctx ctx.data = true ∧
        ctx.data + EthHdr.LEN + Ipv4Hdr.LEN > ctx.data_end))
    (hd : ctx'.data = ctx.data) (he : ctx'.data_end = ctx.data_end)
    (hm : ∀ a, ctx.data ≤ a → a < ctx.data_end → ctx'.mem a = ctx.mem a) :
    ping_drop bl ctx = XDP_ABORTED
    ∧ xdp_firewall ev ctx = (XDP_PASS, ev)
    ∧ ping_drop bl ctx' = ping_drop bl ctx
    ∧ xdp_firewall ev ctx' = xdp_firewall ev ctx := by
  have herr : try_ping_drop bl ctx = Except.error ()
      ∧ try_xdp_firewall ev ctx = Except.error () := by
    rcases hfail with h1 | ⟨hip, h3⟩
    · constructor
      · rw [try_ping_drop_eq]; simp [h1]
      · rw [try_xdp_firewall_eq]; simp [h1]
    · by_cases h1 : ctx.data + EthHdr.LEN > ctx.data_end
      · constructor
        · rw [try_ping_drop_eq]; simp [h1]
        · rw [try_xdp_firewall_eq]; simp [h1]
      · constructor
        · rw [try_ping_drop_eq]; simp [h1, hip, h3]
        · rw [try_xdp_firewall_eq]; simp [h1, hip, h3]
  refine ⟨?_, ?_, ?_, ?_⟩
  · simp [ping_drop, herr.1]
  · simp [xdp_firewall, herr.2]
  · simp [ping_drop, try_ping_drop_frame bl ctx ctx' hd he hm]
  · simp [xdp_firewall, try_xdp_firewall_frame ev ctx ctx' hd he hm]

/-- Witness for C4 at the truncated 5-byte frame. -/
theorem C4_witness :
    ping_drop [] ctxShort = XDP_ABORTED
    ∧ xdp_firewall [] ctxShort = (XDP_PASS, []) := by
  have h := C4_truncated_aborts [] [] ctxShort ctxShort
    (Or.inl (by decide)) rfl rfl (fun a _ _ => rfl)
  exact ⟨h.1, h.2.1⟩

/-- C5: `ptr_at` errors exactly when `data + offset + size` exceeds
`data_end`, and succeeds returning the in-bounds address otherwise; and
since every header field access in both classifiers goes through a
successful `ptr_at`, neither classifier's result depends on any byte at
or beyond `data_end` (nor below `data`). -/
theorem C5_bounds_checked_reads (ctx ctx' : XdpContext) (size offset : Nat)
    (bl : BMap) (ev : EMap)
    (hd : ctx'.data = ctx.data) (he : ctx'.data_end = ctx.data_end)
    (hm : ∀ a, ctx.data ≤ a → a < ctx.data_end → ctx'.mem a = ctx.mem a) :
    (ctx.data + offset + size > ctx.data_end → ptr_at ctx size offset = Except.error ())
    ∧ (ctx.data + offset + size ≤ ctx.data_end →
        ptr_at ctx size offset = Except.ok (ctx.data + offset))
    ∧ try_ping_drop bl ctx' = try_ping_drop bl ctx
    ∧ try_xdp_firewall ev ctx' = try_xdp_firewall ev ctx := by
  refine ⟨?_, ?_, ?_, ?_⟩
  · intro h; simp [ptr_at, h]
  · intro h; simp [ptr_at, Nat.not_lt.mpr h]
  · exact try_ping_drop_frame bl ctx ctx' hd he hm
  · exact try_xdp_firewall_frame ev ctx ctx' hd he hm

/-- Witness for C5: a 20-byte read at offset 14 fits a 34-byte buffer but
a 20-byte read at offset 15 does not; the classifier results agree on two
contexts that agree inside the buffer. -/
theorem C5_witness :
    ptr_at ctxICMP Ipv4Hdr.LEN 15 = Except.error ()
    ∧ ptr_at ctxICMP Ipv4Hdr.LEN EthHdr.LEN = Except.ok 14
    ∧ try_ping_drop [] ctxICMP = try_ping_drop [] ctxICMP := by
  have h := C5_bounds_checked_reads ctxICMP ctxICMP Ipv4Hdr.LEN 15 [] []
    rfl rfl (fun a _ _ => rfl)
  have h' := C5_bounds_checked_reads ctxICMP ctxICMP Ipv4Hdr.LEN EthHdr.LEN [] []
    rfl rfl (fun a _ _ => rfl)
  exact ⟨h.1 (by decide), h'.2.1 (by decide), h.2.2.1⟩

/-- C6, counterexample: an entry whose stored value is 0 is still treated
as blocked — the ICMP packet from 203.0.113.5 is dropped even though the
Blocklist value for that address is 0, so "non-zero value, not mere key
presence, is load-bearing" is false (`BLOCKLIST` is moreover a
`HashMap<u32, u32>`, not an 8-bit-valued map). -/
theorem C6_cex_zero_value_still_blocked :
    lookupA [(srcIp, 0)] srcIp = some 0
    ∧ ping_drop [(srcIp, 0)] ctxICMP = XDP_DROP := by decide

/-- C6 as amended: a BlocklistEntry's value is a 32-bit word that the
classifier never inspects; a source address is treated as blocked exactly
when its key is present in the Blocklist, whatever value (0 included) is
stored: ICMP from a source whose entry holds any value `v` is dropped. -/
theorem C6_presence_is_load_bearing (bl : BMap) (ctx : XdpContext) (v : Nat)
    (hb : ctx.data + EthHdr.LEN + Ipv4Hdr.LEN ≤ ctx.data_end)
    (hip : isIpv4EtherType ctx ctx.data = true)
    (hicmp : ipv4Proto ctx (ctx.data + EthHdr.LEN) = IpProto.Icmp)
    (hv : lookupA bl (ipv4Src ctx (ctx.data + EthHdr.LEN)) = some v) :
    block_ip bl (ipv4Src ctx (ctx.data + EthHdr.LEN)) = true
    ∧ try_ping_drop bl ctx = Except.ok XDP_DROP := by
  have hE : EthHdr.LEN = 14 := rfl
  have hI : Ipv4Hdr.LEN = 20 := rfl
  have h1 : ¬ ctx.data + EthHdr.LEN > ctx.data_end := by omega
  have h3 : ¬ ctx.data + EthHdr.LEN + Ipv4Hdr.LEN > ctx.data_end := by omega
  have hblk : block_ip bl (ipv4Src ctx (ctx.data + EthHdr.LEN)) = true := by
    simp [block_ip, hv]
  refine ⟨hblk, ?_⟩
  rw [try_ping_drop_eq]
  simp [h1, h3, hip, hblk, hicmp]

/-- Witness for C6 (amended), with stored value 0. -/
theorem C6_witness :
    block_ip [(srcIp, 0)] srcIp = true
    ∧ try_ping_drop [(srcIp, 0)] ctxICMP = Except.ok XDP_DROP := by
  have h := C6_presence_is_load_bearing [(srcIp, 0)] ctxICMP 0
    (by decide) (by decide) (by decide) (by decide)
  exact h

/-- C7: for every IPv4 address inserted into BLOCKLIST with any value `v`,
including `v = 0`, the classifier treats that address as blocked:
`block_ip` reports it blocked and a well-formed ICMP packet from it is
dropped — `block_ip` tests only key presence and never inspects the
stored value. -/
theorem C7_any_inserted_value_blocks (bl : BMap) (ctx : XdpContext) (addr v : Nat)
    (hb : ctx.data + EthHdr.LEN + Ipv4Hdr.LEN ≤ ctx.data_end)
    (hip : isIpv4EtherType ctx ctx.data = true)
    (hicmp : ipv4Proto ctx (ctx.data + EthHdr.LEN) = IpProto.Icmp)
    (hsrc : ipv4Src ctx (ctx.data + EthHdr.LEN) = addr) :
    block_ip (insertA bl addr v) addr = true
    ∧ try_ping_drop (insertA bl addr v) ctx = Except.ok XDP_DROP
    ∧ (∀ w, block_ip (insertA bl addr w) addr = block_ip (insertA bl addr v) addr) := by
  have hE : EthHdr.LEN = 14 := rfl
  have hI : Ipv4Hdr.LEN = 20 := rfl
  have h1 : ¬ ctx.data + EthHdr.LEN > ctx.data_end := by omega
  have h3 : ¬ ctx.data + EthHdr.LEN + Ipv4Hdr.LEN > ctx.data_end := by omega
  have hblk : ∀ w, block_ip (insertA bl addr w) addr = true := by
    intro w
    simp [block_ip, lookupA_insertA_self]
  refine ⟨hblk v, ?_, fun w => by rw [hblk w, hblk v]⟩
  rw [try_ping_drop_eq]
  simp [h1, h3, hip, hsrc, hblk v, hicmp]

/-- Witness for C7 at value 0: inserting 203.0.113.5 with value 0 into an
empty blocklist drops the concrete ICMP packet from that source. -/
theorem C7_witness :
    block_ip (insertA [] srcIp 0) srcIp = true
    ∧ try_ping_drop (insertA [] srcIp 0) ctxICMP = Except.ok XDP_DROP := by
  have h := C7_any_inserted_value_blocks [] ctxICMP srcIp 0
    (by decide) (by decide) (by decide) (by decide)
  exact ⟨h.1, h.2.1⟩

/- ### Control-plane lemmas. -/

theorem parseIpv4_nil : parseIpv4 [] = none := by decide

theorem parseOctet_head_nondigit (c : Char) (rest : List Char)
    (h : isDigitChar c = false) : parseOctet (c :: rest) = none := by
  simp [parseOctet, List.takeWhile_cons, h]

theorem parseIpv4_head_nondigit (c : Char) (rest : List Char)
    (h : isDigitChar c = false) : parseIpv4 (c :: rest) = none := by
  simp [parseIpv4, parseOctet_head_nondigit c rest h]

/-- A token of the `--block` list that draws a warning: non-empty after
trimming, and not parsable as an IPv4 address. -/
def isInvalidToken (tok : List Char) : Bool :=
  !(trimChars tok).isEmpty && (parseIpv4 (trimChars tok)).isNone

theorem loadToken_warn (st : BMap × Nat) (tok : List Char) :
    (loadToken st tok).2 = st.2 + (if isInvalidToken tok then 1 else 0) := by
  by_cases h1 : (trimChars tok).isEmpty
  · simp [loadToken, isInvalidToken, h1]
  · cases hp : parseIpv4 (trimChars tok) with
    | none => simp [loadToken, isInvalidToken, h1, hp]
    | some ip => simp [loadToken, isInvalidToken, h1, hp]

theorem foldl_loadToken_warn (toks : List (List Char)) (st : BMap × Nat) :
    (toks.foldl loadToken st).2 = st.2 + (toks.filter isInvalidToken).length := by
  induction toks generalizing st with
  | nil => simp
  | cons t ts ih =>
    rw [List.foldl_cons, ih (loadToken st t), loadToken_warn st t, List.filter_cons]
    by_cases h : isInvalidToken t
    · simp [h]
      omega
    · simp [h]

theorem loadToken_preserves_one (st : BMap × Nat) (tok : List Char) (ip : Nat)
    (h : lookupA st.1 ip = some 1) : lookupA (loadToken st tok).1 ip = some 1 := by
  by_cases h1 : (trimChars tok).isEmpty
  · simp [loadToken, h1, h]
  · cases hp : parseIpv4 (trimChars tok) with
    | none => simp [loadToken, h1, hp, h]
    | some ip' =>
      by_cases hk : ip = ip'
      · subst hk
        simp [loadToken, h1, hp, lookupA_insertA_self]
      · simp [loadToken, h1, hp, lookupA_insertA_ne st.1 ip' ip 1 hk, h]

theorem foldl_loadToken_preserves_one (toks : List (List Char)) (st : BMap × Nat)
    (ip : Nat) (h : lookupA st.1 ip = some 1) :
    lookupA (toks.foldl loadToken st).1 ip = some 1 := by
  induction toks generalizing st with
  | nil => exact h
  | cons t ts ih =>
    rw [List.foldl_cons]
    exact ih (loadToken st t) (loadToken_preserves_one st t ip h)

theorem foldl_loadToken_inserts (toks : List (List Char)) (st : BMap × Nat)
    (tok : List Char) (ip : Nat) (hmem : tok ∈ toks)
    (hp : parseIpv4 (trimChars tok) = some ip) :
    lookupA (toks.foldl loadToken st).1 ip = some 1 := by
  induction toks generalizing st with
  | nil => cases hmem
  | cons t ts ih =>
    rw [List.foldl_cons]
    rcases List.mem_cons.mp hmem with heq | hmem'
    · subst heq
      apply foldl_loadToken_preserves_one
      have hne : ¬ (trimChars tok).isEmpty := by
        intro hc
        rw [List.isEmpty_iff.mp hc, parseIpv4_nil] at hp
        cases hp
      simp [loadToken, hne, hp, lookupA_insertA_self]
    · exact ih (loadToken st t) hmem'

/-- A line of the `--ip-file` that draws a warning: neither blank nor a
comment after trimming, and not parsable as an IPv4 address. -/
def isInvalidLine (line : List Char) : Bool :=
  !((trimChars line).isEmpty || ((trimChars line).headD ' ' == '#'))
    && (parseIpv4 (trimChars line)).isNone

theorem loadLine_warn (st : BMap × Nat) (line : List Char) :
    (loadLine st line).2 = st.2 + (if isInvalidLine line then 1 else 0) := by
  by_cases h1 : (trimChars line).isEmpty
  · simp [loadLine, isInvalidLine, h1]
  · by_cases h2 : (trimChars line).head?.getD ' ' = '#'
    · simp [loadLine, isInvalidLine, h1, h2]
    · cases hp : parseIpv4 (trimChars line) with
      | none => simp [loadLine, isInvalidLine, h1, h2, hp]
      | some ip => simp [loadLine, isInvalidLine, h1, h2, hp]

theorem foldl_loadLine_warn (lines : List (List Char)) (st : BMap × Nat) :
    (lines.foldl loadLine st).2 = st.2 + (lines.filter isInvalidLine).length := by
  induction lines generalizing st with
  | nil => simp
  | cons t ts ih =>
    rw [List.foldl_cons, ih (loadLine st t), loadLine_warn st t, List.filter_cons]
    by_cases h : isInvalidLine t
    · simp [h]
      omega
    · simp [h]

theorem loadLine_preserves_one (st : BMap × Nat) (line : List Char) (ip : Nat)
    (h : lookupA st.1 ip = some 1) : lookupA (loadLine st line).1 ip = some 1 := by
  by_cases h1 : (trimChars line).isEmpty
  · simp [loadLine, h1, h]
  · by_cases h2 : (trimChars line).head?.getD ' ' = '#'
    · simp [loadLine, h1, h2, h]
    · cases hp : parseIpv4 (trimChars line) with
      | none => simp [loadLine, h1, h2, hp, h]
      | some ip' =>
        by_cases hk : ip = ip'
        · subst hk
          simp [loadLine, h1, h2, hp, lookupA_insertA_self]
        · simp [loadLine, h1, h2, hp, lookupA_insertA_ne st.1 ip' ip 1 hk, h]

theorem foldl_loadLine_preserves_one (lines : List (List Char)) (st : BMap × Nat)
    (ip : Nat) (h : lookupA st.1 ip = some 1) :
    lookupA (lines.foldl loadLine st).1 ip = some 1 := by
  induction lines generalizing st with
  | nil => exact h
  | cons t ts ih =>
    rw [List.foldl_cons]
    exact ih (loadLine st t) (loadLine_preserves_one st t ip h)

theorem parseIpv4_not_skipped (cs : List Char) (ip : Nat)
    (hp : parseIpv4 cs = some ip) :
    (cs.isEmpty || (cs.headD ' ' == '#') : Bool) = false := by
  cases cs with
  | nil => rw [parseIpv4_nil] at hp; cases hp
  | cons c rest =>
    by_cases hc : c = '#'
    · subst hc
      rw [parseIpv4_head_nondigit '#' rest (by decide)] at hp
      cases hp
    · simp [hc]

theorem foldl_loadLine_inserts (lines : List (List Char)) (st : BMap × Nat)
    (line : List Char) (ip : Nat) (hmem : line ∈ lines)
    (hp : parseIpv4 (trimChars line) = some ip) :
    lookupA (lines.foldl loadLine st).1 ip = some 1 := by
  induction lines generalizing st with
  | nil => cases hmem
  | cons t ts ih =>
    rw [List.foldl_cons]
    rcases List.mem_cons.mp hmem with heq | hmem'
    · subst heq
      apply foldl_loadLine_preserves_one
      have hskip := parseIpv4_not_skipped (trimChars line) ip hp
      have h1 : ¬ (trimChars line).isEmpty := by
        intro hc
        simp [hc] at hskip
      have h2 : ¬ (trimChars line).head?.getD ' ' = '#' := by
        intro hc
        simp [List.headD_eq_head?_getD, hc] at hskip
      simp [loadLine, h1, h2, hp, lookupA_insertA_self]
    · exact ih (loadLine st t) hmem'

theorem allOnes_insertA (m : BMap) (ip : Nat)
    (h : ∀ k v, lookupA m k = some v → v = 1) :
    ∀ k v, lookupA (insertA m ip 1) k = some v → v = 1 := by
  intro k v hv
  by_cases hk : k = ip
  · subst hk
    rw [lookupA_insertA_self] at hv
    exact (Option.some.inj hv).symm
  · rw [lookupA_insertA_ne m ip k 1 hk] at hv
    exact h k v hv

theorem loadToken_map_cases (st : BMap × Nat) (tok : List Char) :
    (loadToken st tok).1 = st.1 ∨ ∃ ip, (loadToken st tok).1 = insertA st.1 ip 1 := by
  by_cases h1 : (trimChars tok).isEmpty
  · left
    simp [loadToken, h1]
  · cases hp : parseIpv4 (trimChars tok) with
    | none =>
      left
      simp [loadToken, h1, hp]
    | some ip =>
      right
      exact ⟨ip, by simp [loadToken, h1, hp]⟩

theorem loadLine_map_cases (st : BMap × Nat) (line : List Char) :
    (loadLine st line).1 = st.1 ∨ ∃ ip, (loadLine st line).1 = insertA st.1 ip 1 := by
  by_cases h1 : (trimChars line).isEmpty
  · left
    simp [loadLine, h1]
  · by_cases h2 : (trimChars line).head?.getD ' ' = '#'
    · left
      simp [loadLine, h1, h2]
    · cases hp : parseIpv4 (trimChars line) with
      | none =>
        left
        simp [loadLine, h1, h2, hp]
      | some ip =>
        right
        exact ⟨ip, by simp [loadLine, h1, h2, hp]⟩

theorem foldl_loadToken_allOnes (toks : List (List Char)) (st : BMap × Nat)
    (h : ∀ k v, lookupA st.1 k = some v → v = 1) :
    ∀ k v, lookupA (toks.foldl loadToken st).1 k = some v → v = 1 := by
  induction toks generalizing st with
  | nil => exact h
  | cons t ts ih =>
    rw [List.foldl_cons]
    apply ih
    rcases loadToken_map_cases st t with hc | ⟨ip, hc⟩
    · rw [hc]; exact h
    · rw [hc]; exact allOnes_insertA st.1 ip h

theorem foldl_loadLine_allOnes (lines : List (List Char)) (st : BMap × Nat)
    (h : ∀ k v, lookupA st.1 k = some v → v = 1) :
    ∀ k v, lookupA (lines.foldl loadLine st).1 k = some v → v = 1 := by
  induction lines generalizing st with
  | nil => exact h
  | cons t ts ih =>
    rw [List.foldl_cons]
    apply ih
    rcases loadLine_map_cases st t with hc | ⟨ip, hc⟩
    · rw [hc]; exact h
    · rw [hc]; exact allOnes_insertA st.1 ip h

/-- C8: with both `--block` and `--ip-file` given, population processes
the inline list first and the file second; every value stored is 1; and a
second insertion of the same address overwrites the first, leaving
exactly one effective entry holding the later write's value. -/
theorem C8_inline_first_file_second_idempotent (b : List Char)
    (ls : List (List Char)) (m : BMap) (k v₁ v₂ : Nat) :
    populate (some b) (some ls) = processIpFile (processBlockList ([], 0) b) ls
    ∧ (∀ k' v', lookupA (populate (some b) (some ls)).1 k' = some v' → v' = 1)
    ∧ lookupA (insertA (insertA m k v₁) k v₂) k = some v₂
    ∧ countKey (insertA (insertA m k v₁) k v₂) k = 1 := by
  refine ⟨rfl, ?_, lookupA_insertA_self (insertA m k v₁) k v₂,
    countKey_insertA_self (insertA m k v₁) k v₂⟩
  intro k' v' hv
  have hbase : ∀ k v, lookupA (([], 0) : BMap × Nat).1 k = some v → v = 1 := by
    intro k v hk
    simp [lookupA] at hk
  exact foldl_loadLine_allOnes ls (processBlockList ([], 0) b)
    (foldl_loadToken_allOnes (splitOnComma b) ([], 0) hbase) k' v' hv

/-- Witness for C8 on concrete data: 10.0.0.1 inline and in the file ends
up as a single entry with value 1; a double insert keeps the later value. -/
theorem C8_witness :
    (∀ v', lookupA (populate (some ("10.0.0.1".toList))
        (some [("10.0.0.1".toList)])).1 167772161 = some v' → v' = 1)
    ∧ lookupA (insertA (insertA ([] : BMap) 167772161 7) 167772161 9) 167772161 = some 9
    ∧ countKey (insertA (insertA ([] : BMap) 167772161 7) 167772161 9) 167772161 = 1 := by
  have h := C8_inline_first_file_second_idempotent ("10.0.0.1".toList)
    [("10.0.0.1".toList)] ([] : BMap) 167772161 7 9
  exact ⟨fun v' hv => h.2.1 167772161 v' hv, h.2.2.1, h.2.2.2⟩

/-- The spec's example `--block` argument. -/
def blockArgGood : List Char := "10.0.0.1,not-an-ip,10.0.0.2".toList

/-- A `--block` argument with an empty token between two commas. -/
def blockArgEmptyTok : List Char := "10.0.0.1,,10.0.0.2".toList

/-- 10.0.0.1 as a big-endian u32. -/
def ip1 : Nat := 167772161

/-- 10.0.0.2 as a big-endian u32. -/
def ip2 : Nat := 167772162

/-- C9, counterexample: on `--block "10.0.0.1,,10.0.0.2"` the comma-split
yields the empty token, which is trimmed to the empty string and is not a
valid IPv4 literal — yet the loop emits zero warnings, because tokens
that are empty after trimming are skipped before parsing. This refutes
"every token ... is trimmed and parsed" / "each invalid token ...
produces exactly one warning". -/
theorem C9_cex_empty_token_not_warned :
    splitOnComma blockArgEmptyTok = ["10.0.0.1".toList, [], "10.0.0.2".toList]
    ∧ parseIpv4 (trimChars []) = none
    ∧ (processBlockList ([], 0) blockArgEmptyTok).2 = 0 := by
  refine ⟨by decide, by decide, by decide⟩

/-- C9 as amended: every token of the comma-split `--block` list is
trimmed; tokens that are empty after trimming are skipped silently, and
every other token is parsed as IPv4. Every line of the `--ip-file` that
is not blank after trimming and whose trimmed form does not start with
'#' is parsed the same way. Each invalid parsed token or line produces
exactly one warning and is skipped while all valid addresses are still
inserted (with value 1), and processing is total (no abort): on
`--block "10.0.0.1,not-an-ip,10.0.0.2"` both valid addresses are
inserted and exactly one warning is emitted. -/
theorem C9_skip_and_warn_policy :
    (∀ st l, (processBlockList st l).2 =
      st.2 + ((splitOnComma l).filter isInvalidToken).length)
    ∧ (∀ st l tok ip, tok ∈ splitOnComma l → parseIpv4 (trimChars tok) = some ip →
        lookupA (processBlockList st l).1 ip = some 1)
    ∧ (∀ st ls, (processIpFile st ls).2 = st.2 + (ls.filter isInvalidLine).length)
    ∧ (∀ st ls line ip, line ∈ ls → parseIpv4 (trimChars line) = some ip →
        lookupA (processIpFile st ls).1 ip = some 1)
    ∧ lookupA (processBlockList ([], 0) blockArgGood).1 ip1 = some 1
    ∧ lookupA (processBlockList ([], 0) blockArgGood).1 ip2 = some 1
    ∧ (processBlockList ([], 0) blockArgGood).2 = 1 := by
  refine ⟨?_, ?_, ?_, ?_, by decide, by decide, by decide⟩
  · intro st l
    exact foldl_loadToken_warn (splitOnComma l) st
  · intro st l tok ip hmem hp
    exact foldl_loadToken_inserts (splitOnComma l) st tok ip hmem hp
  · intro st ls
    exact foldl_loadLine_warn ls st
  · intro st ls line ip hmem hp
    exact foldl_loadLine_inserts ls st line ip hmem hp

/-- Witness for C9 on the spec's example argument. -/
theorem C9_witness :
    (processBlockList ([], 0) blockArgGood).2 =
      0 + ((splitOnComma blockArgGood).filter isInvalidToken).length
    ∧ lookupA (processBlockList ([], 0) blockArgGood).1 ip1 = some 1 :=
  ⟨C9_skip_and_warn_policy.1 ([], 0) blockArgGood,
   C9_skip_and_warn_policy.2.1 ([], 0) blockArgGood ("10.0.0.1".toList) ip1
     (by decide) (by decide)⟩

/- ### Event-map lemmas. -/

theorem stepEvent_eq_insert (ev : EMap) (e : Event) :
    stepEvent ev e = insertA ev (eventKey e) (eventRecord e) := by
  cases e <;> rfl

theorem findFirst_append {α : Type} (p : α → Bool) (l₁ l₂ : List α) :
    (l₁ ++ l₂).find? p =
      match l₁.find? p with
      | some a => some a
      | none => l₂.find? p := by
  induction l₁ with
  | nil => simp
  | cons a l ih =>
    by_cases h : p a
    · simp [List.find?_cons, h]
    · simp [List.find?_cons, h, ih]

theorem runEvents_lookup (es : List Event) (m : EMap) (t : Nat) :
    lookupA (runEvents m es) t =
      match es.reverse.find? (fun e => eventKey e == t) with
      | some e => some (eventRecord e)
      | none => lookupA m t := by
  induction es generalizing m with
  | nil => simp [runEvents]
  | cons e es ih =>
    show lookupA (runEvents (stepEvent m e) es) t = _
    rw [ih (stepEvent m e), List.reverse_cons,
      findFirst_append (fun e => eventKey e == t) es.reverse [e]]
    cases hf : es.reverse.find? (fun e => eventKey e == t) with
    | some e' => rfl
    | none =>
      simp only
      rw [stepEvent_eq_insert]
      by_cases ht : eventKey e = t
      · subst ht
        simp [List.find?_cons, lookupA_insertA_self]
      · have : (eventKey e == t) = false := by simp [ht]
        simp [List.find?_cons, this,
          lookupA_insertA_ne m (eventKey e) t (eventRecord e) (fun hc => ht hc.symm)]

theorem countKey_runEvents_le (es : List Event) (m : EMap) (t : Nat)
    (h : countKey m t ≤ 1) : countKey (runEvents m es) t ≤ 1 := by
  induction es generalizing m with
  | nil => exact h
  | cons e es ih =>
    show countKey (runEvents (stepEvent m e) es) t ≤ 1
    apply ih
    rw [stepEvent_eq_insert]
    by_cases ht : t = eventKey e
    · subst ht
      rw [countKey_insertA_self]
    · rw [countKey_insertA_ne m (eventKey e) t (eventRecord e) ht]
      exact h

/-- C10: each event occurrence writes its EventData record at the key
equal to its event type (1 = Network, 2 = SocketConnect, 3 = Exec),
overwriting the previous record under that key; hence after any sequence
of events the EVENTS table holds at most one record per event type,
namely the record of the most recent event of that type (last-write-wins,
no queueing). -/
theorem C10_events_last_write_wins (es : List Event) (t : Nat) :
    countKey (runEvents [] es) t ≤ 1
    ∧ lookupA (runEvents [] es) t =
        (es.reverse.find? (fun e => eventKey e == t)).map eventRecord
    ∧ (∀ e : Event, (eventRecord e).event_type = eventKey e)
    ∧ (∀ (ev : EMap) (e : Event), stepEvent ev e = insertA ev (eventKey e) (eventRecord e)) := by
  refine ⟨countKey_runEvents_le es [] t (by simp [countKey]), ?_,
    fun e => by cases e <;> rfl, fun ev e => stepEvent_eq_insert ev e⟩
  rw [runEvents_lookup es [] t]
  cases hf : es.reverse.find? (fun e => eventKey e == t) with
  | some e => rfl
  | none => rfl
